import Mathlib

/-!
Verification of the `lark` request library (crates `lark-requests` and
`lark-requests-macros`) against its natural-language specification.

The development shallowly embeds the relevant Rust source:

* `src/lark-requests/src/schema.rs` — the response envelope types
  (`BodyResponse`, `FlattenResponse`) and the custom `Deserialize`
  implementation (`BodyResponseVisitor::visit_map`);
* `src/lark-requests/src/serialize.rs` — the `RequestSerialize` trait and its
  `Option`/`Vec` instances;
* `src/lark-requests/src/utils.rs` — `replace_path_params`;
* `src/lark-requests/src/errors.rs` and `src/lark-requests/src/blocking.rs` —
  `LarkError` and the envelope-resolution tail of `Client::execute`;
* `src/lark-requests-macros/src/internals/{commons,container,fields}.rs` — the
  annotation grammar matchers and the container/field descriptor builders,
  together with the runtime behaviour of the code emitted by
  `FieldsVariable::to_tokens` and `RequestVariable::body`.

JSON values are modelled by an inductive `Json` type (numbers as integers,
which covers every value the envelope machinery inspects); serde map access
is modelled as the ordered list of `(key, value)` entries the deserializer
sees; fallible operations return `Except`.
-/

namespace Lark

/-! ## JSON values and deserialization errors -/

/-- A JSON value. Numbers are modelled as integers: the envelope code is a
`u64` on the wire and no fraction-dependent behaviour is claimed. -/
inductive Json where
  | null : Json
  | bool : Bool → Json
  | num : Int → Json
  | str : String → Json
  | arr : List Json → Json
  | obj : List (String × Json) → Json
deriving Repr

/-- serde deserialization errors, restricted to the constructors the embedded
code produces (`Error::unknown_field`, `Error::missing_field`, type errors,
derived duplicate-field errors). -/
inductive DeError where
  | unknownField : String → DeError
  | missingField : String → DeError
  | invalidType : String → DeError
  | duplicateField : String → DeError
deriving Repr, DecidableEq

/-- Deserializing a JSON value as a `u64` (serde accepts a non-negative
integer below `2^64`). -/
def Json.asU64 : Json → Except DeError Nat
  | .num n => if 0 ≤ n ∧ n < 2 ^ 64 then .ok n.toNat else .error (.invalidType "u64")
  | _ => .error (.invalidType "u64")

/-- Deserializing a JSON value as a `String`. -/
def Json.asStr : Json → Except DeError String
  | .str s => .ok s
  | _ => .error (.invalidType "string")

/-! ## The nested envelope: `BodyResponse<T>` and its custom visitor
(`schema.rs`, `BodyResponseVisitor::visit_map`). -/

/-- `BodyResponse<T> { code: u64, message: String, data: Option<T> }`. -/
structure BodyResponse (T : Type) where
  code : Nat
  message : String
  data : Option T
deriving Repr, DecidableEq

/-- `Response::is_success`: `self.code() == 0` (`schema.rs`). -/
def BodyResponse.is_success (r : BodyResponse T) : Bool :=
  r.code == 0

/-- The visitor's local state: `code: Option<u64>`, `message: Option<String>`,
`data: Option<Option<T>>` (`visit_map`). -/
structure VisitState (T : Type) where
  code : Option Nat
  message : Option String
  data : Option (Option T)
deriving Repr, DecidableEq

/-- serde's `Option<T>` deserialization, used by `access.next_value()` at the
`data` field: JSON `null` becomes `None`, anything else is decoded by `T`'s
decoder `decT`. -/
def decodeOptional (decT : Json → Except DeError T) : Json → Except DeError (Option T)
  | .null => .ok none
  | v => (decT v).map some

/-- One iteration of the `while let Some(key) = access.next_key()?` loop in
`BodyResponseVisitor::visit_map`: `code` and `msg` are decoded as `u64` and
`String`; `data` is decoded as `Option<T>` only when `code == Some(0)` and is
otherwise consumed as `IgnoredAny` (which succeeds on every well-formed JSON
value and leaves the state unchanged); any other key is an unknown-field
error. -/
def stepEntry (decT : Json → Except DeError T) (st : VisitState T) :
    String × Json → Except DeError (VisitState T)
  | (key, v) =>
    if key = "code" then
      (v.asU64).map fun n => { st with code := some n }
    else if key = "msg" then
      (v.asStr).map fun s => { st with message := some s }
    else if key = "data" then
      if st.code = some 0 then
        (decodeOptional decT v).map fun d => { st with data := some d }
      else
        .ok st
    else
      .error (.unknownField key)

/-- The visitor loop over the map entries in wire order. -/
def visitEntries (decT : Json → Except DeError T) :
    VisitState T → List (String × Json) → Except DeError (VisitState T)
  | st, [] => .ok st
  | st, e :: rest =>
    match stepEntry decT st e with
    | .error err => .error err
    | .ok st' => visitEntries decT st' rest

/-- `BodyResponse`'s `Deserialize` over a JSON object given as its ordered
entry list: run the visitor loop from the empty state, then require `code`
and `message` (the source reports the latter as `missing_field("message")`)
and flatten the buffered `data`. -/
def bodyDeserialize (decT : Json → Except DeError T)
    (entries : List (String × Json)) : Except DeError (BodyResponse T) :=
  match visitEntries decT ⟨none, none, none⟩ entries with
  | .error e => .error e
  | .ok st =>
    match st.code with
    | none => .error (.missingField "code")
    | some c =>
      match st.message with
      | none => .error (.missingField "message")
      | some m => .ok ⟨c, m, st.data.join⟩

/-! ## The flattened envelope: `FlattenResponse<T>` (`schema.rs`). -/

/-- `FlattenResponse<T> { code: u64, #[serde(rename = "msg")] message: String,
#[serde(flatten)] data: Option<T> }`. -/
structure FlattenResponse (T : Type) where
  code : Nat
  message : String
  data : Option T
deriving Repr, DecidableEq

/-- `Response::data` for `FlattenResponse`: `self.data` — the stored field is
returned unconditionally (`schema.rs`, `FlattenResponse::data`). -/
def FlattenResponse.dataOf (r : FlattenResponse T) : Option T :=
  r.data

/-- `Response::data` for `BodyResponse`: `self.data`. -/
def BodyResponse.dataOf (r : BodyResponse T) : Option T :=
  r.data

/-- `Response::is_success` for `FlattenResponse`. -/
def FlattenResponse.is_success (r : FlattenResponse T) : Bool :=
  r.code == 0

/-- Collector state for the derived flatten deserialization: `code`, `msg`,
and the residual entries (every other key, in wire order). -/
structure FlattenState where
  code : Option Nat
  message : Option String
  rest : List (String × Json)
deriving Repr

/-- The derived `Deserialize` for a struct with two plain fields and a
`#[serde(flatten)]` tail: known keys are decoded in place (a repeated known
key is a duplicate-field error), every other key is buffered for the
flattened field. -/
def flattenCollect : FlattenState → List (String × Json) → Except DeError FlattenState
  | st, [] => .ok st
  | st, (key, v) :: rest =>
    if key = "code" then
      match st.code with
      | some _ => .error (.duplicateField "code")
      | none =>
        match v.asU64 with
        | .error e => .error e
        | .ok n => flattenCollect { st with code := some n } rest
    else if key = "msg" then
      match st.message with
      | some _ => .error (.duplicateField "msg")
      | none =>
        match v.asStr with
        | .error e => .error e
        | .ok s => flattenCollect { st with message := some s } rest
    else
      flattenCollect { st with rest := st.rest ++ [(key, v)] } rest

/-- The derived flatten deserialization of `FlattenResponse<T>`: `code` and
`msg` are required; the flattened `Option<T>` field uses serde's
untagged-option rule — `T` is deserialized from the residual entries and a
failure yields `None` rather than an error (this is what lets the crate's
`flatten_body_error_response` test decode `{"code":100000,…,"data":{}}`). -/
def flattenDeserialize (decT : Json → Except DeError T)
    (entries : List (String × Json)) : Except DeError (FlattenResponse T) :=
  match flattenCollect ⟨none, none, []⟩ entries with
  | .error e => .error e
  | .ok st =>
    match st.code with
    | none => .error (.missingField "code")
    | some c =>
      match st.message with
      | none => .error (.missingField "msg")
      | some m =>
        match decT (.obj st.rest) with
        | .ok t => .ok ⟨c, m, some t⟩
        | .error _ => .ok ⟨c, m, none⟩

/-! ## A concrete payload type: the `TenantAccessToken` used by the crate's
own envelope tests (`schema.rs`, `mod response_tests`). -/

structure TenantAccessToken where
  tenant_access_token : String
  expire : Nat
deriving Repr, DecidableEq

/-- Assoc-list lookup of a JSON object key (first occurrence wins). -/
def jsonLookup (fields : List (String × Json)) (key : String) : Option Json :=
  (fields.find? fun p => p.1 = key).map (·.2)

/-- The derived decoder of `TenantAccessToken`: both fields are mandatory,
unknown keys are ignored (serde's default). -/
def decodeTenant : Json → Except DeError TenantAccessToken
  | .obj fields =>
    match jsonLookup fields "tenant_access_token" with
    | none => .error (.missingField "tenant_access_token")
    | some jv =>
      match jv.asStr with
      | .error e => .error e
      | .ok s =>
        match jsonLookup fields "expire" with
        | none => .error (.missingField "expire")
        | some je =>
          match je.asU64 with
          | .error e => .error e
          | .ok n => .ok ⟨s, n⟩
  | _ => .error (.invalidType "map")

/-- A payload decoder that succeeds on any input — the decoder of a payload
struct all of whose fields are `Option`/defaulted, which serde derives to
succeed on an arbitrary object. -/
def decodeAlways : Json → Except DeError Nat :=
  fun _ => .ok 7

/-! ## `RequestSerialize` (`serialize.rs`)

The scalar instances are `Some(self.to_string())`; the `Option<T>` instance
forwards `Some` and yields `None` for `None`; the `Vec<T>` instance joins the
elements with `','` calling `.unwrap()` on every element's serialization.
A `Panic` outcome models a Rust panic (here: `Option::unwrap` on `None`). -/

/-- Marker for a Rust panic. -/
inductive Panic where
  | panic : Panic
deriving Repr, DecidableEq

/-- The scalar instances produced by `impl_request_serialize!` for `u64` &c.:
`Some(self.to_string())`. -/
def natSerialize (n : Nat) : Option String :=
  some (toString n)

/-- `impl RequestSerialize for String`. -/
def stringSerialize (s : String) : Option String :=
  some s

/-- `impl<T: RequestSerialize> RequestSerialize for Option<T>`: forward the
inner serialization, `None` stays absent. -/
def optionSerialize (elemSer : α → Option String) : Option α → Option String
  | some v => elemSer v
  | none => none

/-- The `for (i, v) in self.iter().enumerate()` loop of
`impl<T: RequestSerialize> RequestSerialize for Vec<T>`: a comma before every
element but the first, then `v.serialize().unwrap()` — the `unwrap` panics
when the element serializes to `None`. -/
def vecSerializeLoop (elemSer : α → Option String) :
    List α → Nat → String → Except Panic String
  | [], _, acc => .ok acc
  | v :: rest, i, acc =>
    let acc := if i > 0 then acc ++ "," else acc
    match elemSer v with
    | none => .error .panic
    | some s => vecSerializeLoop elemSer rest (i + 1) (acc ++ s)

/-- `impl<T: RequestSerialize> RequestSerialize for Vec<T>`: run the loop on
an empty buffer and wrap the result in `Some`. -/
def vecSerialize (elemSer : α → Option String) (xs : List α) :
    Except Panic (Option String) :=
  (vecSerializeLoop elemSer xs 0 "").map some

/-! ## `LarkError` and the envelope-resolution tail of `Client::execute`
(`errors.rs`, `blocking.rs`). -/

/-- `LarkError { code: u64, message: String }`. -/
structure LarkError where
  code : Nat
  message : String
deriving Repr, DecidableEq

/-- `LarkError::from_response`: `Self::new(response.code(), response.message().clone())`. -/
def LarkError.from_response (r : BodyResponse T) : LarkError :=
  ⟨r.code, r.message⟩

/-- The tail of `Client::execute` after the envelope has been decoded
(`blocking.rs` lines 88–93): a non-success envelope becomes
`LarkError::from_response`; on success the payload is extracted with
`ok_or_else(|| LarkError::new(502, "response data is null"))`. -/
def executeResolve (r : BodyResponse T) : Except LarkError T :=
  if ¬ r.is_success then
    .error (LarkError.from_response r)
  else
    match r.dataOf with
    | some t => .ok t
    | none => .error ⟨502, "response data is null"⟩

/-! ## `replace_path_params` (`utils.rs`)

`Regex::new(r":(\w+)").replace_all(path, |caps| params.get(&caps[1])
 .map_or(caps[0].to_string(), …))`: scan the address left to right; at each
`':'` followed by a non-empty run of word characters, replace the whole token
by the mapped value when the identifier is a key and keep the token verbatim
otherwise; replacement values are not rescanned.  The scan is implemented on
the character list with an explicit fuel argument (always instantiated with
the list length, which bounds the number of loop iterations) so that the
definition is structurally recursive and kernel-computable. -/

/-- The ASCII fragment of the regex class `\w` (all inputs of the claims are
ASCII). -/
def isWordChar (c : Char) : Bool :=
  c.isAlphanum || c = '_'

/-- `HashMap::get` on the path-parameter map, modelled as first-match lookup
in an association list. -/
def lookupParam (params : List (String × String)) (key : String) : Option String :=
  (params.find? fun p => p.1 = key).map (·.2)

/-- The matcher/replacer loop of `replace_all` for the pattern `:(\w+)`. -/
def replaceLoop (params : List (String × String)) : Nat → List Char → List Char
  | _, [] => []
  | 0, l => l
  | fuel + 1, c :: rest =>
    if c = ':' then
      let w := rest.takeWhile isWordChar
      if w.isEmpty then
        c :: replaceLoop params fuel rest
      else
        match lookupParam params (String.mk w) with
        | some v => v.data ++ replaceLoop params fuel (rest.dropWhile isWordChar)
        | none => c :: (w ++ replaceLoop params fuel (rest.dropWhile isWordChar))
    else
      c :: replaceLoop params fuel rest

/-- The replacement scan on a character list, with the fuel instantiated at
the list length (which always suffices: every iteration consumes at least one
character). -/
def replaceChars (params : List (String × String)) (l : List Char) : List Char :=
  replaceLoop params l.length l

/-- `replace_path_params(path, params)`. -/
def replace_path_params (path : String) (params : List (String × String)) : String :=
  String.mk (replaceChars params path.data)

/-- Whether the character list contains a `:(\w+)` match, i.e. a `':'`
immediately followed by a word character. -/
def hasPlaceholder : List Char → Bool
  | [] => false
  | [_] => false
  | c :: d :: rest => (c = ':' && isWordChar d) || hasPlaceholder (d :: rest)

/-- The first character, if any, is not a word character — the condition for
a placeholder token to end before a suffix. -/
def headNotWord : List Char → Bool
  | [] => true
  | d :: _ => ! isWordChar d

/-! ## Annotation argument expressions (`syn::Expr` as the matchers in
`internals/commons.rs` discriminate them)

The matchers look at: a bare single-segment path (`Expr::Path` whose
`is_ident` can succeed), an assignment whose left side is such a path and
whose right side is a boolean literal, a string literal, some other literal,
or a non-literal; a bare string literal; a bare literal of another kind; and
everything else.  A multi-segment bare path is kept separate because
`parse_response_data` accepts it while `parse_method`'s
`get_ident().unwrap()` panics on it. -/
inductive Arg where
  /-- bare single-segment path, e.g. `flatten`, `GET`, `AssertToken` -/
  | ident : String → Arg
  /-- bare multi-segment path, e.g. `lark_requests::AssertToken` -/
  | path2 : Arg
  /-- `name = <bool literal>` -/
  | assignBool : String → Bool → Arg
  /-- `name = <string literal>` -/
  | assignStr : String → String → Arg
  /-- `name = <literal of any other kind>` or `name = <non-literal>` -/
  | assignOther : String → Arg
  /-- assignment whose left side is not a plain path — the matchers `continue` -/
  | assignNonPath : Arg
  /-- bare string literal, e.g. `"https://x"` -/
  | strLit : String → Arg
  /-- bare literal of any other kind, e.g. `42` -/
  | otherLit : Arg
  /-- any other expression -/
  | otherExpr : Arg
deriving Repr, DecidableEq

/-- The grammar-level error of the matchers: `syn::Error::new_spanned(expr,
"invalid value")`. -/
inductive GrammarError where
  | invalidValue : GrammarError
deriving Repr, DecidableEq

/-- Shift a matcher result one argument to the right, for the recursive
formulation of the `iter().enumerate()` scans. -/
def bumpIdx : Option (α × Nat) → Option (α × Nat)
  | none => none
  | some (a, i) => some (a, i + 1)

/-- `bumpIdx` for the three-component result of the flag-or-string matcher. -/
def bumpIdx3 : Option (Bool × Option String × Nat) → Option (Bool × Option String × Nat)
  | none => none
  | some (b, s, i) => some (b, s, i + 1)

/-- `parse_bool_var(args, ident)` (`commons.rs` 31–57): left-to-right scan;
a bare matching identifier yields `true`, `name = <bool>` yields the literal,
`name = <non-bool>` is an "invalid value" error; everything else is skipped.
The returned index is the argument's position in the scanned list. -/
def parse_bool_var : List Arg → String → Except GrammarError (Option (Bool × Nat))
  | [], _ => .ok none
  | a :: rest, name =>
    match a with
    | .ident n =>
      if n = name then .ok (some (true, 0))
      else (parse_bool_var rest name).map bumpIdx
    | .assignBool n b =>
      if n = name then .ok (some (b, 0))
      else (parse_bool_var rest name).map bumpIdx
    | .assignStr n _ =>
      if n = name then .error .invalidValue
      else (parse_bool_var rest name).map bumpIdx
    | .assignOther n =>
      if n = name then .error .invalidValue
      else (parse_bool_var rest name).map bumpIdx
    | _ => (parse_bool_var rest name).map bumpIdx

/-- `parse_string_var(args, ident)` (`commons.rs` 59–82): only `name =
<string>` matches; `name = <non-string>` is an "invalid value" error;
everything else (including bare identifiers and literals) is skipped. -/
def parse_string_var : List Arg → String → Except GrammarError (Option (String × Nat))
  | [], _ => .ok none
  | a :: rest, name =>
    match a with
    | .assignStr n s =>
      if n = name then .ok (some (s, 0))
      else (parse_string_var rest name).map bumpIdx
    | .assignBool n _ =>
      if n = name then .error .invalidValue
      else (parse_string_var rest name).map bumpIdx
    | .assignOther n =>
      if n = name then .error .invalidValue
      else (parse_string_var rest name).map bumpIdx
    | _ => (parse_string_var rest name).map bumpIdx

/-- `parse_bool_or_string_var(args, ident)` (`commons.rs` 84–128): a bare
matching identifier yields `(true, None)`; `name = <bool>` yields
`(value, None)`; `name = <string>` yields `(true, Some(string))`; `name =
<other literal>` is an error; a bare string literal — at whatever position
the scan reaches it — yields `(true, Some(string))`; a bare literal of any
other kind is an error; other expressions are skipped. -/
def parse_bool_or_string_var :
    List Arg → String → Except GrammarError (Option (Bool × Option String × Nat))
  | [], _ => .ok none
  | a :: rest, name =>
    match a with
    | .ident n =>
      if n = name then .ok (some (true, none, 0))
      else (parse_bool_or_string_var rest name).map bumpIdx3
    | .assignBool n b =>
      if n = name then .ok (some (b, none, 0))
      else (parse_bool_or_string_var rest name).map bumpIdx3
    | .assignStr n s =>
      if n = name then .ok (some (true, some s, 0))
      else (parse_bool_or_string_var rest name).map bumpIdx3
    | .assignOther n =>
      if n = name then .error .invalidValue
      else (parse_bool_or_string_var rest name).map bumpIdx3
    | .strLit s => .ok (some (true, some s, 0))
    | .otherLit => .error .invalidValue
    | _ => (parse_bool_or_string_var rest name).map bumpIdx3

/-! ## Container descriptor builder (`internals/container.rs`) -/

/-- `ALLOW_METHODS`. -/
def ALLOW_METHODS : List String :=
  ["OPTIONS", "GET", "POST", "PUT", "DELETE", "PATCH", "TRACE", "HEAD"]

/-- `RequestVariable` (`container.rs` 43–50). The response expression is kept
as the argument it was parsed from. -/
structure RequestVariable where
  method : Option String := none
  address : Option String := none
  response : Option Arg := none
  flatten : Bool := false
  body : Option Bool := none
deriving Repr, DecidableEq

/-- Container-parse errors: the `REQUEST_ATTRIBUTE_ERROR` diagnostic, a
grammar error from `parse_bool_var`, and the panic of
`parse_method`'s `get_ident().unwrap()` on a multi-segment path. -/
inductive ContainerError where
  | requestAttr : ContainerError
  | grammar : GrammarError → ContainerError
  | panicked : ContainerError
deriving Repr, DecidableEq

/-- `parse_method` (`container.rs` 92–101): a bare path whose single ident is
one of the 8 verbs; a multi-segment path panics on `get_ident().unwrap()`;
anything else is an "unknown attribute" error (here `.error none`, the panic
being `.error (some .unit)`-like via `ContainerError` at the call site). -/
inductive MethodResult where
  | ok : String → MethodResult
  | failed : MethodResult
  | panicked : MethodResult
deriving Repr, DecidableEq

def parse_method : Arg → MethodResult
  | .ident n => if n ∈ ALLOW_METHODS then .ok n else .failed
  | .path2 => .panicked
  | _ => .failed

/-- `parse_address` (`container.rs` 103–113): only a bare string literal. -/
def parse_address : Arg → Option String
  | .strLit s => some s
  | _ => none

/-- `parse_response_data` (`container.rs` 115–120): any bare path. -/
def parse_response_data : Arg → Option Arg
  | .ident n => some (.ident n)
  | .path2 => some .path2
  | _ => none

/-- `Vec::pop` on the argument pool. The pool is kept in the order of the
reversed vec built by `args.iter().rev().collect()`, so popping the vec's
last element yields the first argument in declared order. -/
def vecPop (l : List Arg) : Option (Arg × List Arg) :=
  match l.reverse with
  | [] => none
  | a :: rest => some (a, rest.reverse)

/-- `container::parse` (`container.rs` 130–192) given the declared argument
list of the single `#[request(...)]` attribute: pop the first argument and
try it as a method, falling back to the URL literal with method `POST`; then
the URL literal if still missing; then the response path; then the optional
`flatten` and `body` flags; any leftover argument is an error. -/
def containerParse (argsDeclared : List Arg) : Except ContainerError RequestVariable :=
  let pool := argsDeclared.reverse
  match vecPop pool with
  | none => .error .requestAttr
  | some (e, pool) =>
    let first : Except ContainerError (RequestVariable × List Arg) :=
      match parse_method e with
      | .ok m => .ok ({ method := some m }, pool)
      | .panicked => .error .panicked
      | .failed =>
        match parse_address e with
        | some addr => .ok ({ method := some "POST", address := some addr }, pool)
        | none => .error .requestAttr
    match first with
    | .error err => .error err
    | .ok (out, pool) =>
      let withAddress : Except ContainerError (RequestVariable × List Arg) :=
        match out.address with
        | some _ => .ok (out, pool)
        | none =>
          match vecPop pool with
          | none => .error .requestAttr
          | some (e, pool) =>
            match parse_address e with
            | some addr => .ok ({ out with address := some addr }, pool)
            | none => .error .requestAttr
      match withAddress with
      | .error err => .error err
      | .ok (out, pool) =>
        match vecPop pool with
        | none => .error .requestAttr
        | some (e, pool) =>
          match parse_response_data e with
          | none => .error .requestAttr
          | some resp =>
            let out := { out with response := some resp }
            match parse_bool_var pool "flatten" with
            | .error g => .error (.grammar g)
            | .ok found =>
              let (out, pool) :=
                match found with
                | some (b, i) => ({ out with flatten := b }, pool.eraseIdx i)
                | none => (out, pool)
              match parse_bool_var pool "body" with
              | .error g => .error (.grammar g)
              | .ok found =>
                let (out, pool) :=
                  match found with
                  | some (b, i) => ({ out with body := some b }, pool.eraseIdx i)
                  | none => (out, pool)
                if pool.isEmpty then .ok out else .error .requestAttr

/-- `RequestVariable::body`'s resolved flag (`container.rs` 77–78):
`self.body.unwrap_or_else(|| self.method.as_ref().unwrap().to_string() !=
"GET")`.  (The source unwraps `method`; `containerParse` always sets it on
success.) -/
def RequestVariable.hasBody (v : RequestVariable) : Bool :=
  match v.body with
  | some b => b
  | none => v.method ≠ some "GET"

/-- The body accessor emitted by `RequestVariable::body` into the generated
`Request` impl: when the resolved flag is true the whole annotated value is
encoded by the structured codec (`serde_json::to_vec(self)`, abstracted as
`encoded`), otherwise `Ok(None)`. -/
def bodyAccessor (v : RequestVariable) (encoded : β) : Option β :=
  if v.hasBody then some encoded else none

/-! ## Field descriptor builder (`internals/fields.rs`) -/

/-- `VariableMode` (`fields.rs` 34–41). -/
inductive VariableMode where
  | header | path | query
deriving Repr, DecidableEq

/-- `FieldVariable` (`fields.rs` 43–49).  The Rust field `with` is named
`withString` here (`with` is reserved in Lean). -/
structure FieldVariable where
  field : String
  withString : Option String := none
  mode : Option VariableMode := none
  rename : Option String := none
  serialize_with : Option String := none
deriving Repr, DecidableEq

/-- Errors of `fields::parse`: a grammar error from a matcher, the "invalid
attribute" error at the first leftover argument, and the "missing attribute"
error naming the field with no role. -/
inductive FieldsError where
  | grammar : GrammarError → FieldsError
  | invalidAttribute : Arg → FieldsError
  | missingAttribute : String → FieldsError
deriving Repr, DecidableEq

/-- The role-resolution step of `fields::parse` (lines 188–200): try the
flag-or-string matcher for `header`, then `path`, then `query`; the first
match fixes the mode and inline rename and its argument is removed from the
pool. -/
def roleStep (pool : List Arg) :
    Except FieldsError (Option VariableMode × Option String × List Arg) :=
  match parse_bool_or_string_var pool "header" with
  | .error g => .error (.grammar g)
  | .ok (some (_, rn, i)) => .ok (some .header, rn, pool.eraseIdx i)
  | .ok none =>
    match parse_bool_or_string_var pool "path" with
    | .error g => .error (.grammar g)
    | .ok (some (_, rn, i)) => .ok (some .path, rn, pool.eraseIdx i)
    | .ok none =>
      match parse_bool_or_string_var pool "query" with
      | .error g => .error (.grammar g)
      | .ok (some (_, rn, i)) => .ok (some .query, rn, pool.eraseIdx i)
      | .ok none => .ok (none, none, pool)

/-- One optional string argument (`rename` / `serialize_with` / `with`):
consume it from the pool when present. -/
def optStringStep (pool : List Arg) (name : String) :
    Except FieldsError (Option String × List Arg) :=
  match parse_string_var pool name with
  | .error g => .error (.grammar g)
  | .ok none => .ok (none, pool)
  | .ok (some (s, i)) => .ok (some s, pool.eraseIdx i)

/-- The per-field body of the `for field in fields.iter()` loop of
`fields::parse` (lines 183–218), up to but excluding the final `match
var.mode`: build the reversed argument pool, resolve the role, parse
`rename`, `serialize_with` and `with` (an explicit `rename` overrides the
role's inline rename), and reject any leftover argument with "invalid
attribute" at the first leftover. -/
def processField (name : String) (argsDeclared : List Arg) :
    Except FieldsError FieldVariable :=
  let pool := argsDeclared.reverse
  match roleStep pool with
  | .error e => .error e
  | .ok (mode, inlineRename, pool) =>
    match optStringStep pool "rename" with
    | .error e => .error e
    | .ok (rn, pool) =>
      match optStringStep pool "serialize_with" with
      | .error e => .error e
      | .ok (sw, pool) =>
        match optStringStep pool "with" with
        | .error e => .error e
        | .ok (w, pool) =>
          match pool with
          | a :: _ => .error (.invalidAttribute a)
          | [] =>
            .ok { field := name
                  withString := w
                  mode := mode
                  rename := match rn with | some r => some r | none => inlineRename
                  serialize_with := sw }

/-- A struct field as `fields::parse` sees it: its identifier and, when the
field carries a `#[request(...)]` attribute, the declared argument list. -/
abbrev FieldDecl := String × Option (List Arg)

/-- `fields::parse` (lines 167–228): walk the fields in declaration order,
skip fields without the attribute, process the rest, and push each resulting
variable onto the list of its mode — erroring with "missing attribute" at a
field whose mode stayed unresolved.  Returns `(headers, paths, queries)`. -/
def fieldsParse :
    List FieldDecl →
    Except FieldsError (List FieldVariable × List FieldVariable × List FieldVariable)
  | [] => .ok ([], [], [])
  | (_, none) :: rest => fieldsParse rest
  | (name, some args) :: rest =>
    match processField name args with
    | .error e => .error e
    | .ok var =>
      match var.mode with
      | none => .error (.missingAttribute name)
      | some m =>
        match fieldsParse rest with
        | .error e => .error e
        | .ok (hs, ps, qs) =>
          match m with
          | .header => .ok (var :: hs, ps, qs)
          | .path => .ok (hs, var :: ps, qs)
          | .query => .ok (hs, ps, var :: qs)

/-! ## Runtime behaviour of the emitted accessors
(`FieldVariable::to_tokens` / `FieldsVariable::to_tokens`, `fields.rs` 57–147)

The generated code evaluates, for every field descriptor in declaration
order, the pair `(String::from(name), value)` where `name` is the rename or
the field identifier and `value` is the field's serialization (custom
`serialize_with` or the default `RequestSerialize::serialize`), prefixed by
the `with` string when both are present; it inserts the pair only when the
value is `Some`.  The serialization outcome of each struct field is
abstracted as an environment `env : String → Option String` from field
identifier to serialized value. -/

/-- The wire name: `rename` if present, else the field identifier. -/
def fieldKey (f : FieldVariable) : String :=
  f.rename.getD f.field

/-- The emitted value expression: the field's serialized value, wrapped by
`format!("{}{}", with, val)` when a `with` prefix is configured and the value
is present (`None` stays `None`). -/
def fieldValue (env : String → Option String) (f : FieldVariable) : Option String :=
  match f.withString with
  | some w => (env f.field).map fun val => w ++ val
  | none => env f.field

/-- The sequence of `(key, val)` pairs the emitted loop actually inserts:
fields whose value is absent are skipped. -/
def emitEntries (env : String → Option String) (fs : List FieldVariable) :
    List (String × String) :=
  fs.filterMap fun f => (fieldValue env f).map fun v => (fieldKey f, v)

/-- The emitted `query_params()` / `headers()` accessor
(`FieldsVariable::to_tokens`, vec branch): `None` for an empty descriptor
list, otherwise `Some` of the inserted pairs in declaration order. -/
def listAccessor (env : String → Option String) (fs : List FieldVariable) :
    Option (List (String × String)) :=
  match fs with
  | [] => none
  | _ => some (emitEntries env fs)

/-- The emitted `path_params()` accessor (hash-map branch): the same inserts,
folded into a `HashMap` — modelled as the inserted pairs, later entries
overwriting earlier ones on lookup. -/
def mapAccessor (env : String → Option String) (fs : List FieldVariable) :
    Option (List (String × String)) :=
  match fs with
  | [] => none
  | _ => some (emitEntries env fs)

/-! ## Helper lemmas -/

/-- Number of entries carrying a given key. -/
def countKey (k : String) (entries : List (String × Json)) : Nat :=
  (entries.filter fun p => p.1 = k).length

/-- Entry counts: head entry carries the key. -/
theorem countKey_cons_eq {k key : String} (v : Json) (rest : List (String × Json))
    (h : key = k) : countKey k ((key, v) :: rest) = countKey k rest + 1 := by
  simp [countKey, List.filter_cons, h]

/-- Entry counts: head entry does not carry the key. -/
theorem countKey_cons_ne {k key : String} (v : Json) (rest : List (String × Json))
    (h : ¬ key = k) : countKey k ((key, v) :: rest) = countKey k rest := by
  simp [countKey, List.filter_cons, h]

/-- Running the visitor loop over an appended entry list splits into the two
runs. -/
theorem visitEntries_append (decT : Json → Except DeError T)
    (l1 l2 : List (String × Json)) :
    ∀ st, visitEntries decT st (l1 ++ l2) =
      match visitEntries decT st l1 with
      | .error e => .error e
      | .ok st' => visitEntries decT st' l2 := by
  induction l1 with
  | nil => intro st; rfl
  | cons e rest ih =>
    intro st
    show visitEntries decT st (e :: (rest ++ l2)) = _
    cases hstep : stepEntry decT st e with
    | error err => simp [visitEntries, hstep]
    | ok st' => simpa [visitEntries, hstep] using ih st'

/-- A visitor step on a key other than `code` leaves the buffered `code`
unchanged, and when the current `code` is not `Some(0)` it leaves the
buffered `data` unchanged as well. -/
theorem stepEntry_preserves (decT : Json → Except DeError T)
    (st st' : VisitState T) (key : String) (v : Json)
    (hk : key ≠ "code") (h : stepEntry decT st (key, v) = .ok st') :
    st'.code = st.code ∧ (st.code ≠ some 0 → st'.data = st.data) := by
  simp only [stepEntry] at h
  rw [if_neg hk] at h
  by_cases hm : key = "msg"
  · rw [if_pos hm] at h
    cases hv : v.asStr <;> rw [hv] at h <;> simp [Except.map] at h
    subst h
    exact ⟨rfl, fun _ => rfl⟩
  · rw [if_neg hm] at h
    by_cases hd : key = "data"
    · rw [if_pos hd] at h
      by_cases hc : st.code = some 0
      · rw [if_pos hc] at h
        cases hv : decodeOptional decT v <;> rw [hv] at h <;> simp [Except.map] at h
        subst h
        exact ⟨rfl, fun hne => absurd hc hne⟩
      · rw [if_neg hc] at h
        simp at h
        subst h
        exact ⟨rfl, fun _ => rfl⟩
    · rw [if_neg hd] at h
      simp at h

/-- If no entry carries the `code` key, the visitor loop preserves the
buffered `code`, and preserves the buffered `data` unless the incoming `code`
was `Some(0)`. -/
theorem visitEntries_no_code (decT : Json → Except DeError T) :
    ∀ (entries : List (String × Json)) (st0 st1 : VisitState T),
      countKey "code" entries = 0 →
      visitEntries decT st0 entries = .ok st1 →
      st1.code = st0.code ∧ (st0.code ≠ some 0 → st1.data = st0.data) := by
  intro entries
  induction entries with
  | nil =>
    intro st0 st1 _ h
    simp [visitEntries] at h
    subst h
    exact ⟨rfl, fun _ => rfl⟩
  | cons e rest ih =>
    intro st0 st1 h0 h
    obtain ⟨key, v⟩ := e
    have hk : key ≠ "code" := by
      intro hkey
      rw [countKey_cons_eq v rest hkey] at h0
      omega
    have hrest : countKey "code" rest = 0 := by
      rw [countKey_cons_ne v rest hk] at h0
      exact h0
    cases hstep : stepEntry decT st0 (key, v) with
    | error err => simp [visitEntries, hstep] at h
    | ok st' =>
      simp only [visitEntries, hstep] at h
      obtain ⟨hc', hd'⟩ := stepEntry_preserves decT st0 st' key v hk hstep
      obtain ⟨hc, hd⟩ := ih st' st1 hrest h
      refine ⟨hc.trans hc', fun hne => ?_⟩
      have hne' : st'.code ≠ some 0 := by rw [hc']; exact hne
      exact (hd hne').trans (hd' hne)

/-- If the `code` key occurs at most once, the empty-state visitor run ends
with no buffered `data` whenever the final `code` is non-zero. -/
theorem visitEntries_code_once (decT : Json → Except DeError T) :
    ∀ (entries : List (String × Json)) (st0 st1 : VisitState T),
      countKey "code" entries ≤ 1 →
      st0.code = none → st0.data = none →
      visitEntries decT st0 entries = .ok st1 →
      st1.code ≠ some 0 →
      st1.data = none := by
  intro entries
  induction entries with
  | nil =>
    intro st0 st1 _ _ hd h _
    simp [visitEntries] at h
    subst h
    exact hd
  | cons e rest ih =>
    intro st0 st1 h1 hc0 hd0 h hfin
    obtain ⟨key, v⟩ := e
    by_cases hk : key = "code"
    · have hrest : countKey "code" rest = 0 := by
        rw [countKey_cons_eq v rest hk] at h1
        omega
      cases hstep : stepEntry decT st0 (key, v) with
      | error err => simp [visitEntries, hstep] at h
      | ok st' =>
        simp only [visitEntries, hstep] at h
        have hdata' : st'.data = st0.data := by
          simp only [stepEntry] at hstep
          rw [if_pos hk] at hstep
          cases hv : v.asU64 <;> rw [hv] at hstep <;> simp [Except.map] at hstep
          subst hstep
          rfl
        obtain ⟨hcodes, hdatas⟩ := visitEntries_no_code decT rest st' st1 hrest h
        have hne' : st'.code ≠ some 0 := by rw [← hcodes]; exact hfin
        rw [hdatas hne', hdata', hd0]
    · have hrest : countKey "code" rest ≤ 1 := by
        rw [countKey_cons_ne v rest hk] at h1
        exact h1
      cases hstep : stepEntry decT st0 (key, v) with
      | error err => simp [visitEntries, hstep] at h
      | ok st' =>
        simp only [visitEntries, hstep] at h
        obtain ⟨hc', hd'⟩ := stepEntry_preserves decT st0 st' key v hk hstep
        have hc'0 : st'.code = none := hc'.trans hc0
        have hd'0 : st'.data = none := by
          rw [hd' (by rw [hc0]; exact Option.noConfusion), hd0]
        exact ih st' st1 hrest hc'0 hd'0 h hfin

/-! ### Path-substitution lemmas -/

/-- Any two sufficient fuels make `replaceLoop` agree: every iteration
consumes at least one character. -/
theorem replaceLoop_fuel_agree (params : List (String × String)) :
    ∀ (f1 : Nat), ∀ (f2 : Nat) (l : List Char),
      l.length ≤ f1 → l.length ≤ f2 →
      replaceLoop params f1 l = replaceLoop params f2 l := by
  intro f1
  induction f1 with
  | zero =>
    intro f2 l h1 _
    cases l with
    | nil => cases f2 <;> rfl
    | cons c rest => simp at h1
  | succ f ih =>
    intro f2 l h1 h2
    cases l with
    | nil => cases f2 <;> rfl
    | cons c rest =>
      cases f2 with
      | zero => simp at h2
      | succ g =>
        simp only [List.length_cons, Nat.succ_le_succ_iff] at h1 h2
        simp only [replaceLoop]
        by_cases hc : c = ':'
        · rw [if_pos hc, if_pos hc]
          by_cases hw : ((rest.takeWhile isWordChar).isEmpty : Bool) = true
          · rw [if_pos hw, if_pos hw, ih g rest h1 h2]
          · rw [if_neg hw, if_neg hw]
            have hdrop : (rest.dropWhile isWordChar).length ≤ rest.length :=
              (List.dropWhile_suffix isWordChar).sublist.length_le
            cases lookupParam params (String.mk (rest.takeWhile isWordChar)) with
            | some v =>
              rw [ih g (rest.dropWhile isWordChar) (hdrop.trans h1) (hdrop.trans h2)]
            | none =>
              rw [ih g (rest.dropWhile isWordChar) (hdrop.trans h1) (hdrop.trans h2)]
        · rw [if_neg hc, if_neg hc, ih g rest h1 h2]

/-- `replaceLoop` with any sufficient fuel computes `replaceChars`. -/
theorem replaceLoop_eq_replaceChars (params : List (String × String))
    (fuel : Nat) (l : List Char) (h : l.length ≤ fuel) :
    replaceLoop params fuel l = replaceChars params l :=
  replaceLoop_fuel_agree params fuel l.length l h (Nat.le_refl _)

/-- A character other than `':'` passes through the scan unchanged. -/
theorem replaceChars_cons_ne (params : List (String × String))
    (c : Char) (rest : List Char) (hc : c ≠ ':') :
    replaceChars params (c :: rest) = c :: replaceChars params rest := by
  show replaceLoop params (rest.length + 1) (c :: rest) = _
  simp only [replaceLoop]
  rw [if_neg hc]
  rfl

/-- A prefix free of `':'` passes through the scan unchanged. -/
theorem replaceChars_append_no_colon (params : List (String × String)) :
    ∀ (pre rest : List Char), (∀ c ∈ pre, c ≠ ':') →
      replaceChars params (pre ++ rest) = pre ++ replaceChars params rest := by
  intro pre
  induction pre with
  | nil => intro rest _; rfl
  | cons c pre' ih =>
    intro rest h
    have hc : c ≠ ':' := h c (List.mem_cons_self c pre')
    rw [List.cons_append, replaceChars_cons_ne params c (pre' ++ rest) hc,
      ih rest fun d hd => h d (List.mem_cons_of_mem c hd), List.cons_append]

/-- Splitting `w ++ suf` at the word boundary: `takeWhile` keeps exactly `w`
and `dropWhile` leaves exactly `suf` when `w` is all word characters and
`suf` does not start with one. -/
theorem takeWhile_word_boundary (w suf : List Char)
    (hw : ∀ c ∈ w, isWordChar c = true) (hs : headNotWord suf = true) :
    (w ++ suf).takeWhile isWordChar = w ∧ (w ++ suf).dropWhile isWordChar = suf := by
  induction w with
  | nil =>
    cases suf with
    | nil => exact ⟨rfl, rfl⟩
    | cons d r =>
      have hd : isWordChar d = false := by
        simp [headNotWord] at hs
        exact hs
      constructor
      · show (d :: r).takeWhile isWordChar = []
        simp [List.takeWhile_cons, hd]
      · show (d :: r).dropWhile isWordChar = d :: r
        simp [List.dropWhile_cons, hd]
  | cons c w' ih =>
    have hc : isWordChar c = true := hw c (List.mem_cons_self c w')
    have hw' : ∀ d ∈ w', isWordChar d = true :=
      fun d hd => hw d (List.mem_cons_of_mem c hd)
    obtain ⟨ht, hd⟩ := ih hw'
    constructor
    · show ((c :: w') ++ suf).takeWhile isWordChar = c :: w'
      rw [List.cons_append, List.takeWhile_cons, hc]
      simp only [if_true, ht]
    · show ((c :: w') ++ suf).dropWhile isWordChar = suf
      rw [List.cons_append, List.dropWhile_cons, hc]
      simp only [if_true, hd]

/-- A placeholder token whose identifier is a key of the map is replaced by
the mapped value (and the value is not rescanned). -/
theorem replaceChars_token_hit (params : List (String × String))
    (w suf : List Char) (v : String)
    (hw0 : w ≠ []) (hw : ∀ c ∈ w, isWordChar c = true)
    (hs : headNotWord suf = true)
    (hv : lookupParam params (String.mk w) = some v) :
    replaceChars params (':' :: (w ++ suf)) = v.data ++ replaceChars params suf := by
  obtain ⟨ht, hd⟩ := takeWhile_word_boundary w suf hw hs
  have hne : (w.isEmpty : Bool) ≠ true := by
    cases w with
    | nil => exact absurd rfl hw0
    | cons a b => simp [List.isEmpty]
  show replaceLoop params ((w ++ suf).length + 1) (':' :: (w ++ suf)) = _
  simp only [replaceLoop, ht, hd, hv, if_pos rfl]
  rw [if_neg hne]
  exact congrArg (v.data ++ ·) (replaceLoop_eq_replaceChars params _ suf (by
    simp [List.length_append]))

/-- A placeholder token whose identifier is not a key of the map is left
verbatim. -/
theorem replaceChars_token_miss (params : List (String × String))
    (w suf : List Char)
    (hw0 : w ≠ []) (hw : ∀ c ∈ w, isWordChar c = true)
    (hs : headNotWord suf = true)
    (hv : lookupParam params (String.mk w) = none) :
    replaceChars params (':' :: (w ++ suf)) = ':' :: (w ++ replaceChars params suf) := by
  obtain ⟨ht, hd⟩ := takeWhile_word_boundary w suf hw hs
  have hne : (w.isEmpty : Bool) ≠ true := by
    cases w with
    | nil => exact absurd rfl hw0
    | cons a b => simp [List.isEmpty]
  show replaceLoop params ((w ++ suf).length + 1) (':' :: (w ++ suf)) = _
  simp only [replaceLoop, ht, hd, hv, if_pos rfl]
  rw [if_neg hne]
  refine congrArg (':' :: ·) (congrArg (w ++ ·) ?_)
  exact replaceLoop_eq_replaceChars params _ suf (by simp [List.length_append])

/-! ### Field-builder lemmas -/

/-- A successfully processed field variable carries its field's identifier. -/
theorem processField_field : ∀ (name : String) (args : List Arg) (var : FieldVariable),
    processField name args = .ok var → var.field = name := by
  intro name args var h
  simp only [processField] at h
  repeat' split at h
  all_goals
    first
    | (injection h with h2; subst h2; rfl)
    | simp at h

/-- `fieldsParse` partitions the processed fields by their single resolved
mode and keeps declaration order inside each of the three lists. -/
theorem fieldsParse_partition : ∀ (fs : List FieldDecl) (hs ps qs : List FieldVariable),
    fieldsParse fs = .ok (hs, ps, qs) →
    ((∀ v ∈ hs, v.mode = some .header)
      ∧ (∀ v ∈ ps, v.mode = some .path)
      ∧ (∀ v ∈ qs, v.mode = some .query))
    ∧ ((hs.map FieldVariable.field).Sublist (fs.map Prod.fst)
      ∧ (ps.map FieldVariable.field).Sublist (fs.map Prod.fst)
      ∧ (qs.map FieldVariable.field).Sublist (fs.map Prod.fst)) := by
  intro fs
  induction fs with
  | nil =>
    intro hs ps qs h
    simp only [fieldsParse, Except.ok.injEq, Prod.mk.injEq] at h
    obtain ⟨h1, h2, h3⟩ := h
    subst h1; subst h2; subst h3
    simp
  | cons fd rest ih =>
    intro hs ps qs h
    obtain ⟨name, attr⟩ := fd
    cases attr with
    | none =>
      obtain ⟨hmodes, s1, s2, s3⟩ := ih hs ps qs h
      exact ⟨hmodes, s1.cons name, s2.cons name, s3.cons name⟩
    | some args =>
      cases hp : processField name args with
      | error e =>
        simp only [fieldsParse, hp] at h
        exact Except.noConfusion h
      | ok var =>
        simp only [fieldsParse, hp] at h
        cases hm : var.mode with
        | none =>
          simp only [hm] at h
          exact Except.noConfusion h
        | some m =>
          simp only [hm] at h
          cases hrest : fieldsParse rest with
          | error e =>
            simp only [hrest] at h
            exact Except.noConfusion h
          | ok triple =>
            obtain ⟨hs', ps', qs'⟩ := triple
            simp only [hrest] at h
            have hfield := processField_field name args var hp
            obtain ⟨⟨m1, m2, m3⟩, s1, s2, s3⟩ := ih hs' ps' qs' hrest
            cases m with
            | header =>
              simp only [Except.ok.injEq, Prod.mk.injEq] at h
              obtain ⟨h1, h2, h3⟩ := h
              subst h1; subst h2; subst h3
              refine ⟨⟨?_, m2, m3⟩, ?_, s2.cons name, s3.cons name⟩
              · intro v hv
                rcases List.mem_cons.mp hv with hv | hv
                · rw [hv]; exact hm
                · exact m1 v hv
              · show (var.field :: hs'.map FieldVariable.field).Sublist
                  (name :: rest.map Prod.fst)
                rw [hfield]
                exact s1.cons₂ name
            | path =>
              simp only [Except.ok.injEq, Prod.mk.injEq] at h
              obtain ⟨h1, h2, h3⟩ := h
              subst h1; subst h2; subst h3
              refine ⟨⟨m1, ?_, m3⟩, s1.cons name, ?_, s3.cons name⟩
              · intro v hv
                rcases List.mem_cons.mp hv with hv | hv
                · rw [hv]; exact hm
                · exact m2 v hv
              · show (var.field :: ps'.map FieldVariable.field).Sublist
                  (name :: rest.map Prod.fst)
                rw [hfield]
                exact s2.cons₂ name
            | query =>
              simp only [Except.ok.injEq, Prod.mk.injEq] at h
              obtain ⟨h1, h2, h3⟩ := h
              subst h1; subst h2; subst h3
              refine ⟨⟨m1, m2, ?_⟩, s1.cons name, s2.cons name, ?_⟩
              · intro v hv
                rcases List.mem_cons.mp hv with hv | hv
                · rw [hv]; exact hm
                · exact m3 v hv
              · show (var.field :: qs'.map FieldVariable.field).Sublist
                  (name :: rest.map Prod.fst)
                rw [hfield]
                exact s3.cons₂ name

/-- The scan is the identity on inputs with no placeholder token. -/
theorem replaceChars_id (params : List (String × String)) :
    ∀ (l : List Char), hasPlaceholder l = false → replaceChars params l = l := by
  intro l
  induction l with
  | nil => intro _; rfl
  | cons c rest ih =>
    intro h
    by_cases hc : c = ':'
    · subst hc
      cases rest with
      | nil => rfl
      | cons d rest' =>
        have hd : isWordChar d = false ∧ hasPlaceholder (d :: rest') = false := by
          simpa [hasPlaceholder] using h
        show replaceLoop params ((d :: rest').length + 1) (':' :: d :: rest') = _
        simp only [replaceLoop, if_pos rfl]
        rw [List.takeWhile_cons, hd.1]
        simp only [if_false, List.isEmpty_nil, if_true]
        exact congrArg (':' :: ·) (ih hd.2)
    · have hrest : hasPlaceholder rest = false := by
        cases rest with
        | nil => rfl
        | cons d r =>
          simp [hasPlaceholder, hc] at h ⊢
          exact h
      rw [replaceChars_cons_ne params c rest hc, ih hrest]

end Lark

section TestVectors
open Lark

/-- The crate's `body_response` test vector. -/
example :
    bodyDeserialize decodeTenant
      [("code", .num 0), ("msg", .str "ok"),
       ("data", .obj [("tenant_access_token", .str "xxx"), ("expire", .num 7200)])] =
    .ok ⟨0, "ok", some ⟨"xxx", 7200⟩⟩ := rfl

/-- The crate's `flatten_body_error_response` test vector: the flattened
`Option<T>` swallows the failed payload decode into `None`. -/
example :
    flattenDeserialize decodeTenant
      [("code", .num 100000), ("msg", .str "invalid"), ("data", .obj [])] =
    .ok ⟨100000, "invalid", none⟩ := rfl

/-- The crate's `test_replace_path_params` first vector. -/
example :
    replace_path_params "/v1/tenants/:tenant_id" [("tenant_id", "123")] =
    "/v1/tenants/123" := by decide

/-- The crate's `test_container_parse` flatten vectors. -/
example :
    containerParse [.strLit "https://x", .ident "T", .ident "flatten"] =
    .ok ⟨some "POST", some "https://x", some (.ident "T"), true, none⟩ := rfl

example :
    containerParse [.strLit "https://x", .ident "T", .assignBool "flatten" true, .ident "unknown"] =
    .error .requestAttr := rfl

/-- The crate's `test_parse` field vectors. -/
example :
    processField "id" [.assignStr "path" "id"] =
    .ok ⟨"id", none, some .path, some "id", none⟩ := rfl

example :
    processField "request_id"
      [.ident "header", .assignStr "rename" "Authorization", .assignStr "with" "Bearer "] =
    .ok ⟨"request_id", some "Bearer ", some .header, some "Authorization", none⟩ := rfl

example :
    fieldsParse [("x", some [])] = .error (.missingAttribute "x") := rfl

end TestVectors

open Lark

/-! ## Claims -/

/-- C1: when deserializing a nested envelope object, for every field order:
the `data` field is decoded as the payload type only when `code` has already
been read and equals 0; for any other buffered `code` value (including not
yet read) the `data` value is consumed and discarded independently of the
payload decoder; decoding fails with a missing-field error when `code` or
`message` is absent after all fields are consumed; and
`{"code":100000,"msg":"invalid","data":{}}` decodes successfully with
`is_success() == false`, `code() == 100000`, `data() == None`. -/
theorem c1_nested_envelope_conditional_data :
    (∀ (T : Type) (decT : Json → Except DeError T) (st : VisitState T) (v : Json),
        st.code ≠ some 0 → stepEntry decT st ("data", v) = .ok st)
    ∧ (∀ (T : Type) (decT : Json → Except DeError T) (st : VisitState T) (v : Json),
        st.code = some 0 →
        stepEntry decT st ("data", v) =
          (decodeOptional decT v).map fun d => { st with data := some d })
    ∧ (∀ (T : Type) (decT : Json → Except DeError T)
        (entries : List (String × Json)) (st : VisitState T),
        visitEntries decT ⟨none, none, none⟩ entries = .ok st →
        st.code = none →
        bodyDeserialize decT entries = .error (.missingField "code"))
    ∧ (∀ (T : Type) (decT : Json → Except DeError T)
        (entries : List (String × Json)) (st : VisitState T) (c : Nat),
        visitEntries decT ⟨none, none, none⟩ entries = .ok st →
        st.code = some c → st.message = none →
        bodyDeserialize decT entries = .error (.missingField "message"))
    ∧ (bodyDeserialize decodeTenant
        [("code", .num 100000), ("msg", .str "invalid"), ("data", .obj [])] =
          .ok ⟨100000, "invalid", none⟩
      ∧ (BodyResponse.mk 100000 "invalid" (none : Option TenantAccessToken)).is_success = false
      ∧ (BodyResponse.mk 100000 "invalid" (none : Option TenantAccessToken)).dataOf = none) := by
  refine ⟨?_, ?_, ?_, ?_, rfl, rfl, rfl⟩
  · intro T decT st v h
    simp [stepEntry, h]
  · intro T decT st v h
    simp [stepEntry, h]
  · intro T decT entries st h hc
    simp only [bodyDeserialize, h, hc]
  · intro T decT entries st c h hc hm
    simp only [bodyDeserialize, h, hc, hm]

/-- Witness for C1 at concrete inputs. -/
theorem c1_nested_envelope_conditional_data_witness :
    stepEntry decodeAlways ⟨some 5, none, none⟩ ("data", Json.obj []) =
      .ok ⟨some 5, none, none⟩
    ∧ stepEntry decodeAlways ⟨some 0, none, none⟩ ("data", Json.null) =
        (decodeOptional decodeAlways Json.null).map
          (fun d => (⟨some 0, none, some d⟩ : VisitState Nat))
    ∧ bodyDeserialize decodeAlways [] = .error (.missingField "code")
    ∧ bodyDeserialize decodeAlways [("code", Json.num 3)] =
        .error (.missingField "message") := by
  refine ⟨?_, ?_, ?_, ?_⟩
  · exact c1_nested_envelope_conditional_data.1 Nat decodeAlways
      ⟨some 5, none, none⟩ (Json.obj []) (by decide)
  · exact c1_nested_envelope_conditional_data.2.1 Nat decodeAlways
      ⟨some 0, none, none⟩ Json.null rfl
  · exact c1_nested_envelope_conditional_data.2.2.1 Nat decodeAlways
      [] ⟨none, none, none⟩ rfl rfl
  · exact c1_nested_envelope_conditional_data.2.2.2.1 Nat decodeAlways
      [("code", Json.num 3)] ⟨some 3, none, none⟩ 3 rfl rfl rfl

/-- C2 counterexample: a flattened envelope whose payload type deserializes
from the residual fields (e.g. a struct of optional fields) yields
`data() == Some(..)` even though `code != 0` — refuting "whenever code != 0,
data() yields None regardless of which payload fields were present". -/
theorem c2_data_none_on_error_counterexample :
    flattenDeserialize decodeAlways
      [("code", .num 100000), ("msg", .str "invalid"), ("data", .obj [])] =
      .ok ⟨100000, "invalid", some 7⟩
    ∧ (FlattenResponse.mk 100000 "invalid" (some 7)).is_success = false
    ∧ (FlattenResponse.mk 100000 "invalid" (some 7)).dataOf = some 7 :=
  ⟨rfl, rfl, rfl⟩

/-- C2 amended: for nested envelopes decoded from a wire object carrying the
`code` key at most once, `code != 0` implies `data() == None`; for flattened
envelopes `data()` returns the stored flattened payload field without
consulting `code`, so an error envelope whose payload type decodes from the
residual fields yields `Some`, not `None`. -/
theorem c2_data_none_on_error_amended :
    (∀ (T : Type) (decT : Json → Except DeError T)
        (entries : List (String × Json)) (r : BodyResponse T),
        countKey "code" entries ≤ 1 →
        bodyDeserialize decT entries = .ok r →
        r.code ≠ 0 → r.dataOf = none)
    ∧ (∀ (T : Type) (r : FlattenResponse T), r.dataOf = r.data)
    ∧ flattenDeserialize decodeAlways
        [("code", .num 100000), ("msg", .str "invalid"), ("data", .obj [])] =
        .ok ⟨100000, "invalid", some 7⟩ := by
  refine ⟨?_, fun T r => rfl, rfl⟩
  intro T decT entries r hcount h hne
  cases hv : visitEntries decT (⟨none, none, none⟩ : VisitState T) entries with
  | error e => simp [bodyDeserialize, hv] at h
  | ok st =>
    simp only [bodyDeserialize, hv] at h
    cases hc : st.code with
    | none => simp [hc] at h
    | some c =>
      simp only [hc] at h
      cases hm : st.message with
      | none => simp [hm] at h
      | some m =>
        simp only [hm] at h
        simp only [Except.ok.injEq] at h
        subst h
        have hfin : st.code ≠ some 0 := by
          rw [hc]
          intro heq
          exact hne (by injection heq)
        have hdata := visitEntries_code_once decT entries
          ⟨none, none, none⟩ st hcount rfl rfl hv hfin
        show st.data.join = none
        rw [hdata]
        rfl

/-- Witness for C2's amended nested-envelope half at a concrete input. -/
theorem c2_data_none_on_error_amended_witness :
    (BodyResponse.mk 5 "e" (none : Option Nat)).dataOf = none := by
  exact c2_data_none_on_error_amended.1 Nat decodeAlways
    [("code", Json.num 5), ("msg", Json.str "e"), ("data", Json.obj [])]
    ⟨5, "e", none⟩ (by decide) rfl (by decide)

/-- C10: a nested-envelope decode fails with an unknown-field error at the
first top-level key other than `code`, `msg`, `data` — extra fields are
rejected, not ignored, also on error responses. -/
theorem c10_unknown_top_level_field :
    (∀ (T : Type) (decT : Json → Except DeError T) (st : VisitState T)
        (key : String) (v : Json),
        key ≠ "code" → key ≠ "msg" → key ≠ "data" →
        stepEntry decT st (key, v) = .error (.unknownField key))
    ∧ (∀ (T : Type) (decT : Json → Except DeError T) (pre : List (String × Json))
        (key : String) (v : Json) (post : List (String × Json)) (st : VisitState T),
        key ≠ "code" → key ≠ "msg" → key ≠ "data" →
        visitEntries decT ⟨none, none, none⟩ pre = .ok st →
        bodyDeserialize decT (pre ++ (key, v) :: post) = .error (.unknownField key))
    ∧ bodyDeserialize decodeTenant
        [("code", .num 100000), ("extra", .null), ("msg", .str "e")] =
        .error (.unknownField "extra") := by
  refine ⟨?_, ?_, rfl⟩
  · intro T decT st key v h1 h2 h3
    simp only [stepEntry]
    rw [if_neg h1, if_neg h2, if_neg h3]
  · intro T decT pre key v post st h1 h2 h3 hpre
    simp only [bodyDeserialize, visitEntries_append, hpre]
    simp [visitEntries, stepEntry, h1, h2, h3]

/-- Witness for C10 at concrete inputs. -/
theorem c10_unknown_top_level_field_witness :
    stepEntry decodeAlways ⟨none, none, none⟩ ("extra", Json.null) =
      .error (.unknownField "extra")
    ∧ bodyDeserialize decodeAlways [("code", Json.num 5), ("oops", Json.bool true)] =
        .error (.unknownField "oops") := by
  constructor
  · exact c10_unknown_top_level_field.1 Nat decodeAlways ⟨none, none, none⟩
      "extra" Json.null (by decide) (by decide) (by decide)
  · exact c10_unknown_top_level_field.2.1 Nat decodeAlways
      [("code", Json.num 5)] "oops" (Json.bool true) [] ⟨some 5, none, none⟩
      (by decide) (by decide) (by decide) rfl

/-- C3: the claim says no runtime operation of the execution pipeline or its
serialization helpers panics — in particular the default serialization of a
`Vec` whose elements are optional.  The code contradicts this: the `Vec<T>`
instance of `RequestSerialize` calls `.unwrap()` on each element's
serialization, which panics as soon as an element serializes to `None`
(e.g. `vec![None::<u64>]`), while the scalar cases behave as documented. -/
theorem c3_vec_serialize_unwrap_panics :
    vecSerialize (optionSerialize natSerialize) [(none : Option Nat)] = .error .panic
    ∧ vecSerialize (optionSerialize natSerialize) [some 1, none] = .error .panic
    ∧ vecSerialize natSerialize [1, 2, 3] = .ok (some "1,2,3")
    ∧ optionSerialize natSerialize none = none
    ∧ optionSerialize natSerialize (some 10) = some "10" :=
  ⟨rfl, rfl, rfl, rfl, rfl⟩

/-- C4: compiling the container descriptor from `request(GET, "https://x", T)`
yields method `GET`, address `"https://x"` and a body accessor returning
`None`; from `request("https://x", T)` it yields the default method `POST`
and a body accessor returning the codec-encoded struct; an explicit `body`
flag overrides the "has body unless GET" default. -/
theorem c4_container_descriptor_roundtrip :
    containerParse [.ident "GET", .strLit "https://x", .ident "T"] =
      .ok ⟨some "GET", some "https://x", some (.ident "T"), false, none⟩
    ∧ (∀ (β : Type) (enc : β),
        bodyAccessor ⟨some "GET", some "https://x", some (.ident "T"), false, none⟩ enc
          = none)
    ∧ containerParse [.strLit "https://x", .ident "T"] =
        .ok ⟨some "POST", some "https://x", some (.ident "T"), false, none⟩
    ∧ (∀ (β : Type) (enc : β),
        bodyAccessor ⟨some "POST", some "https://x", some (.ident "T"), false, none⟩ enc
          = some enc)
    ∧ (∀ (m a : Option String) (resp : Option Arg) (f : Bool) (b : Bool),
        (RequestVariable.mk m a resp f (some b)).hasBody = b)
    ∧ (∀ (β : Type) (enc : β) (m a : Option String) (resp : Option Arg) (f : Bool),
        bodyAccessor (RequestVariable.mk m a resp f (some false)) enc = none
        ∧ bodyAccessor (RequestVariable.mk m a resp f (some true)) enc = some enc) := by
  refine ⟨rfl, fun β enc => rfl, rfl, fun β enc => rfl, fun m a resp f b => rfl,
    fun β enc m a resp f => ⟨rfl, rfl⟩⟩

/-- C7: after decoding the response envelope, `execute` fails with the
envelope's own code and message when `code != 0`, fails with the
`502`/"response data is null" error when `code == 0` but the payload is
absent, and returns the payload otherwise. -/
theorem c7_execute_envelope_resolution :
    (∀ (T : Type) (r : BodyResponse T),
        r.code ≠ 0 → executeResolve r = .error ⟨r.code, r.message⟩)
    ∧ (∀ (T : Type) (m : String),
        executeResolve (⟨0, m, none⟩ : BodyResponse T) =
          .error ⟨502, "response data is null"⟩)
    ∧ (∀ (T : Type) (m : String) (t : T),
        executeResolve (⟨0, m, some t⟩ : BodyResponse T) = .ok t) := by
  refine ⟨?_, fun T m => rfl, fun T m t => rfl⟩
  intro T r h
  simp [executeResolve, BodyResponse.is_success, BodyResponse.dataOf,
    LarkError.from_response, h]

/-- Witness for C7's error branch at a concrete envelope. -/
theorem c7_execute_envelope_resolution_witness :
    executeResolve (⟨100000, "invalid", none⟩ : BodyResponse Nat) =
      .error ⟨100000, "invalid"⟩ := by
  exact c7_execute_envelope_resolution.1 Nat ⟨100000, "invalid", none⟩ (by decide)

/-- C5: path substitution replaces every `:identifier` token whose identifier
is a key of the parameter map by the mapped value, leaves every unmatched
`:name` token verbatim (never an error), is the identity on inputs with no
placeholder, and `replace("/v1/:id/:id2", {id:"1"}) == "/v1/1/:id2"`. -/
theorem c5_path_substitution :
    (∀ (s : String) (params : List (String × String)),
        hasPlaceholder s.data = false → replace_path_params s params = s)
    ∧ (∀ (params : List (String × String)) (pre rest : List Char),
        (∀ c ∈ pre, c ≠ ':') →
        replaceChars params (pre ++ rest) = pre ++ replaceChars params rest)
    ∧ (∀ (params : List (String × String)) (w suf : List Char) (v : String),
        w ≠ [] → (∀ c ∈ w, isWordChar c = true) →
        headNotWord suf = true → lookupParam params (String.mk w) = some v →
        replaceChars params (':' :: (w ++ suf)) = v.data ++ replaceChars params suf)
    ∧ (∀ (params : List (String × String)) (w suf : List Char),
        w ≠ [] → (∀ c ∈ w, isWordChar c = true) →
        headNotWord suf = true → lookupParam params (String.mk w) = none →
        replaceChars params (':' :: (w ++ suf)) = ':' :: (w ++ replaceChars params suf))
    ∧ replace_path_params "/v1/:id/:id2" [("id", "1")] = "/v1/1/:id2" := by
  refine ⟨?_, replaceChars_append_no_colon, replaceChars_token_hit,
    replaceChars_token_miss, by decide⟩
  intro s params h
  show String.mk (replaceChars params s.data) = s
  rw [replaceChars_id params s.data h]

/-- Witness for C5 at concrete inputs. -/
theorem c5_path_substitution_witness :
    replace_path_params "/v1/users" [("id", "1")] = "/v1/users"
    ∧ replaceChars [("id", "1")] (['/', 'a'] ++ [':']) =
        ['/', 'a'] ++ replaceChars [("id", "1")] [':']
    ∧ replaceChars [("id", "1")] (':' :: (['i', 'd'] ++ ['/'])) =
        "1".data ++ replaceChars [("id", "1")] ['/']
    ∧ replaceChars [("id", "1")] (':' :: (['z', 'z'] ++ ['/'])) =
        ':' :: (['z', 'z'] ++ replaceChars [("id", "1")] ['/']) := by
  refine ⟨?_, ?_, ?_, ?_⟩
  · exact c5_path_substitution.1 "/v1/users" [("id", "1")] (by decide)
  · exact c5_path_substitution.2.1 [("id", "1")] ['/', 'a'] [':'] (by decide)
  · exact c5_path_substitution.2.2.1 [("id", "1")] ['i', 'd'] ['/'] "1"
      (by decide) (by decide) (by decide) (by decide)
  · exact c5_path_substitution.2.2.2.1 [("id", "1")] ['z', 'z'] ['/']
      (by decide) (by decide) (by decide) (by decide)

/-- C6: every generated `path_params`/`query_params`/`headers` accessor
returns `None` for an empty field list; otherwise a `(wireName, value)` entry
is inserted exactly when the field's serialized value is present — absent
values are omitted, never inserted as empty strings — a present value with a
configured prefix appears as the prefix concatenated with the value, and the
emitted lists follow field declaration order (the entry list is the ordered
`filterMap` of the declared fields). -/
theorem c6_accessor_omission_and_order :
    (∀ (env : String → Option String),
        listAccessor env [] = none ∧ mapAccessor env [] = none)
    ∧ (∀ (env : String → Option String) (f : FieldVariable) (fs : List FieldVariable),
        listAccessor env (f :: fs) = some (emitEntries env (f :: fs))
        ∧ mapAccessor env (f :: fs) = some (emitEntries env (f :: fs)))
    ∧ (∀ (env : String → Option String) (fs : List FieldVariable) (k v : String),
        (k, v) ∈ emitEntries env fs ↔
          ∃ f ∈ fs, fieldKey f = k ∧ fieldValue env f = some v)
    ∧ (∀ (env : String → Option String) (f : FieldVariable),
        env f.field = none → fieldValue env f = none)
    ∧ (∀ (name w s : String) (m : Option VariableMode) (rn sw : Option String)
        (env : String → Option String),
        env name = some s →
        fieldValue env ⟨name, some w, m, rn, sw⟩ = some (w ++ s))
    ∧ (listAccessor
        (fun n => if n = "request_id" then some "tests"
          else if n = "user" then some "ihaiker"
          else if n = "page" then some "1"
          else if n = "limit" then some "10" else none)
        [⟨"request_id", some "Bearer ", some .header, some "Authorization", none⟩,
         ⟨"user", none, some .header, some "User", none⟩] =
        some [("Authorization", "Bearer tests"), ("User", "ihaiker")]
      ∧ listAccessor
          (fun n => if n = "page" then some "1"
            else if n = "limit" then some "10" else none)
          [⟨"page", none, some .query, none, none⟩,
           ⟨"limit", none, some .query, none, none⟩,
           ⟨"opt", none, some .query, none, none⟩] =
          some [("page", "1"), ("limit", "10")]
      ∧ mapAccessor (fun n => if n = "id" then some "1" else none)
          [⟨"id", none, some .path, some "id", none⟩] = some [("id", "1")]) := by
  refine ⟨fun env => ⟨rfl, rfl⟩, fun env f fs => ⟨rfl, rfl⟩, ?_, ?_, ?_,
    rfl, rfl, rfl⟩
  · intro env fs k v
    simp only [emitEntries, List.mem_filterMap, Option.map_eq_some']
    constructor
    · rintro ⟨f, hf, x, hx, hkv⟩
      obtain ⟨hk, hv⟩ := Prod.mk.injEq .. ▸ hkv
      exact ⟨f, hf, hk.symm ▸ rfl, by rw [hx, hv]⟩
    · rintro ⟨f, hf, hk, hv⟩
      exact ⟨f, hf, v, hv, by rw [hk]⟩
  · intro env f h
    cases hw : f.withString <;> simp [fieldValue, hw, h]
  · intro name w s m rn sw env h
    simp [fieldValue, h]

/-- Witness for C6 at concrete inputs. -/
theorem c6_accessor_omission_and_order_witness :
    fieldValue (fun _ => none) ⟨"q", none, some .query, none, none⟩ = none
    ∧ fieldValue (fun _ => some "tests")
        ⟨"request_id", some "Bearer ", some .header, some "Authorization", none⟩ =
        some ("Bearer " ++ "tests")
    ∧ ("a", "1") ∈ emitEntries (fun _ => some "1")
        [(⟨"a", none, some .query, none, none⟩ : FieldVariable)] := by
  refine ⟨?_, ?_, ?_⟩
  · exact c6_accessor_omission_and_order.2.2.2.1 (fun _ => none)
      ⟨"q", none, some .query, none, none⟩ rfl
  · exact c6_accessor_omission_and_order.2.2.2.2.1 "request_id" "Bearer " "tests"
      (some .header) (some "Authorization") none (fun _ => some "tests") rfl
  · exact (c6_accessor_omission_and_order.2.2.1 (fun _ => some "1")
      [⟨"a", none, some .query, none, none⟩] "a" "1").mpr
      ⟨⟨"a", none, some .query, none, none⟩, List.mem_singleton.mpr rfl, rfl, rfl⟩

/-- C8 counterexample: for the field `x` with annotation argument list
`[foo]` none of the three role matchers match, yet the operation fails with
the "invalid attribute" error at the leftover argument — the leftover check
runs before the missing-role check — refuting "if none of the three match,
the whole operation fails with a 'missing attribute' error identifying that
field". -/
theorem c8_missing_attribute_counterexample :
    fieldsParse [("x", some [.ident "foo"])] =
      .error (.invalidAttribute (.ident "foo"))
    ∧ fieldsParse [("x", some [.ident "foo"])] ≠
        .error (.missingAttribute "x") := by
  refine ⟨rfl, ?_⟩
  intro h
  have h2 : (Except.error (FieldsError.invalidAttribute (Arg.ident "foo")) :
      Except FieldsError (List FieldVariable × List FieldVariable × List FieldVariable)) =
      Except.error (FieldsError.missingAttribute "x") := h
  injection h2 with h3
  injection h3

/-- C8 amended: the role is resolved by trying the flag-or-string matcher for
`header`, then `path`, then `query`, first match winning, so every produced
variable carries exactly the mode of the list it lands in and the three
output lists follow field declaration order; fields without the annotation
are skipped; when none of the three match, a leftover unconsumed argument is
reported first as an "invalid attribute" error, and otherwise (all arguments
consumed by the option matchers) the operation fails with a
"missing attribute" error identifying the field. -/
theorem c8_field_roles_amended :
    (∀ (fs : List FieldDecl) (hs ps qs : List FieldVariable),
        fieldsParse fs = .ok (hs, ps, qs) →
        ((∀ v ∈ hs, v.mode = some .header)
          ∧ (∀ v ∈ ps, v.mode = some .path)
          ∧ (∀ v ∈ qs, v.mode = some .query))
        ∧ ((hs.map FieldVariable.field).Sublist (fs.map Prod.fst)
          ∧ (ps.map FieldVariable.field).Sublist (fs.map Prod.fst)
          ∧ (qs.map FieldVariable.field).Sublist (fs.map Prod.fst)))
    ∧ (∀ (pool : List Arg) (b : Bool) (rn : Option String) (i : Nat),
        parse_bool_or_string_var pool "header" = .ok (some (b, rn, i)) →
        roleStep pool = .ok (some .header, rn, pool.eraseIdx i))
    ∧ (∀ (pool : List Arg) (b : Bool) (rn : Option String) (i : Nat),
        parse_bool_or_string_var pool "header" = .ok none →
        parse_bool_or_string_var pool "path" = .ok (some (b, rn, i)) →
        roleStep pool = .ok (some .path, rn, pool.eraseIdx i))
    ∧ (∀ (pool : List Arg) (b : Bool) (rn : Option String) (i : Nat),
        parse_bool_or_string_var pool "header" = .ok none →
        parse_bool_or_string_var pool "path" = .ok none →
        parse_bool_or_string_var pool "query" = .ok (some (b, rn, i)) →
        roleStep pool = .ok (some .query, rn, pool.eraseIdx i))
    ∧ (∀ (name : String) (rest : List FieldDecl),
        fieldsParse ((name, some []) :: rest) = .error (.missingAttribute name))
    ∧ (∀ (name r : String) (rest : List FieldDecl),
        fieldsParse ((name, some [.assignStr "rename" r]) :: rest) =
          .error (.missingAttribute name))
    ∧ (∀ (name : String) (rest : List FieldDecl),
        fieldsParse ((name, none) :: rest) = fieldsParse rest) := by
  refine ⟨fieldsParse_partition, ?_, ?_, ?_,
    fun name rest => rfl, fun name r rest => rfl, fun name rest => rfl⟩
  · intro pool b rn i h
    simp [roleStep, h]
  · intro pool b rn i h1 h2
    simp [roleStep, h1, h2]
  · intro pool b rn i h1 h2 h3
    simp [roleStep, h1, h2, h3]

/-- Witness for C8 at concrete inputs. -/
theorem c8_field_roles_amended_witness :
    (⟨"request_id", none, some .header, none, none⟩ : FieldVariable).mode =
      some VariableMode.header
    ∧ roleStep [.ident "header"] = .ok (some .header, none, [])
    ∧ roleStep [.assignStr "path" "id"] = .ok (some .path, some "id", [])
    ∧ roleStep [.ident "query"] = .ok (some .query, none, []) := by
  refine ⟨?_, ?_, ?_, ?_⟩
  · exact (c8_field_roles_amended.1
      [("request_id", some [.ident "header"])]
      [⟨"request_id", none, some .header, none, none⟩] [] [] rfl).1.1
      ⟨"request_id", none, some .header, none, none⟩ (List.mem_singleton.mpr rfl)
  · exact c8_field_roles_amended.2.1 [.ident "header"] true none 0 rfl
  · exact c8_field_roles_amended.2.2.1 [.assignStr "path" "id"] true (some "id") 0 rfl rfl
  · exact c8_field_roles_amended.2.2.2.1 [.ident "query"] true none 0 rfl rfl rfl

/-- C9 counterexample: scanning `[zzz, "x"]` for `header`, the matcher
returns the bare-string shorthand match at position 1 — the bare string
literal is the second positional argument, refuting "only when the bare
string literal is the first positional argument". -/
theorem c9_first_positional_counterexample :
    parse_bool_or_string_var [.ident "zzz", .strLit "x"] "header" =
      .ok (some (true, some "x", 1))
    ∧ parse_bool_or_string_var [.ident "zzz", .strLit "x"] "header" ≠
        .ok none := by
  refine ⟨rfl, ?_⟩
  intro h
  have h2 : (Except.ok (some (true, some "x", 1)) :
      Except GrammarError (Option (Bool × Option String × Nat))) = .ok none := h
  injection h2 with h3
  injection h3

/-- C9 amended: the flag-or-string matcher returns `(true, None)` for a bare
matching identifier, `(value, None)` for `name = <bool literal>`,
`(true, Some(string))` for `name = <string literal>`, and
`(true, Some(string))` for a bare string literal at whatever position the
left-to-right scan first reaches one (not only the first positional
argument); it fails with a grammar error when an argument matches the name
with a value literal of any other kind, and also when the scan reaches a
bare literal of any other kind. -/
theorem c9_flag_or_string_matcher_amended :
    (∀ (name : String) (rest : List Arg),
        parse_bool_or_string_var (.ident name :: rest) name =
          .ok (some (true, none, 0)))
    ∧ (∀ (name : String) (b : Bool) (rest : List Arg),
        parse_bool_or_string_var (.assignBool name b :: rest) name =
          .ok (some (b, none, 0)))
    ∧ (∀ (name s : String) (rest : List Arg),
        parse_bool_or_string_var (.assignStr name s :: rest) name =
          .ok (some (true, some s, 0)))
    ∧ (∀ (name s : String) (rest : List Arg),
        parse_bool_or_string_var (.strLit s :: rest) name =
          .ok (some (true, some s, 0)))
    ∧ (∀ (name : String) (rest : List Arg),
        parse_bool_or_string_var (.assignOther name :: rest) name =
          .error .invalidValue)
    ∧ (∀ (name : String) (rest : List Arg),
        parse_bool_or_string_var (.otherLit :: rest) name = .error .invalidValue)
    ∧ (∀ (name n : String) (rest : List Arg), n ≠ name →
        parse_bool_or_string_var (.ident n :: rest) name =
          (parse_bool_or_string_var rest name).map bumpIdx3)
    ∧ (∀ (name : String) (rest : List Arg),
        parse_bool_or_string_var (.otherExpr :: rest) name =
          (parse_bool_or_string_var rest name).map bumpIdx3) := by
  refine ⟨?_, ?_, ?_, fun name s rest => rfl, ?_, fun name rest => rfl, ?_,
    fun name rest => rfl⟩
  · intro name rest
    simp [parse_bool_or_string_var]
  · intro name b rest
    simp [parse_bool_or_string_var]
  · intro name s rest
    simp [parse_bool_or_string_var]
  · intro name rest
    simp [parse_bool_or_string_var]
  · intro name n rest h
    simp [parse_bool_or_string_var, h]

/-- Witness for C9's skip rule at a concrete non-matching identifier. -/
theorem c9_flag_or_string_matcher_amended_witness :
    parse_bool_or_string_var [.ident "zzz"] "header" =
      (parse_bool_or_string_var [] "header").map bumpIdx3 := by
  exact c9_flag_or_string_matcher_amended.2.2.2.2.2.2.1 "header" "zzz" []
    (by decide)
